import Mathlib

/-!
Shallow embedding of the FastStack containers (repository colalb1/FastStack):

* `src/include/seraph/stack.hpp` — the adaptive `seraph::Stack<T>`: a
  spinlock-guarded contiguous buffer that promotes once to a Treiber-style
  CAS stack, together with the hazard-pointer scan/retire machinery.
* `src/include/seraph/queue.hpp` — the Michael–Scott `seraph::Queue<T>`.
* `src/include/seraph/ringbuffer.hpp` — the (unfinished) `seraph::RingBuffer<T>`.

The embedding gives the sequential (one operation at a time, each CAS loop
run to completion without interference) semantics of each operation.
Concurrency appears only through the `activeNow` argument of the
adaptive-stack operations: it is the value `active_ops_.fetch_add(1)+1`
observed by `ActiveOperationScope` on entry, which under concurrency can be
any positive number.  Machine counters (`size_t`) are modelled as `Nat`: no
modelled counter can reach `2 ^ 64` without that many operations, so
wraparound is immaterial except in the ring-buffer size computation, where it
is modelled with an explicit `% 2 ^ 64`.
-/

namespace Seraph

/-! ### Hazard-pointer reclamation (stack.hpp, `Stack::scan` / `Stack::retire`)

`queue.hpp` contains a textually identical copy of the same two static
functions (with a 32-entry hazard table instead of 16); the model below
covers both.  Node pointers are modelled as natural numbers; a hazard slot of
the snapshot holds `none` for `nullptr` or `some p` for a protected node
`p`. -/

/-- Build-time constant `k_retire_scan_threshold` (64 in both headers). -/
def k_retire_scan_threshold : Nat := 64

/-- The inner loop of `Stack::scan`: does the retired node appear in the
hazard snapshot?  (`hazard_node == retired_node` for some slot). -/
def keepNode (hazardSnapshot : List (Option Nat)) (retiredNode : Nat) : Bool :=
  hazardSnapshot.any (fun hazardNode => hazardNode == some retiredNode)

/-- `Stack::scan`: walk the retire list left to right; nodes present in the
hazard snapshot are compacted (in order) into the kept list, all others are
deleted.  Returns (kept list, freed nodes in deletion order). -/
def scan (hazardSnapshot : List (Option Nat)) :
    List Nat → List Nat × List Nat
  | [] => ([], [])
  | retiredNode :: rest =>
    let (kept, freed) := scan hazardSnapshot rest
    if keepNode hazardSnapshot retiredNode then (retiredNode :: kept, freed)
    else (kept, retiredNode :: freed)

/-- `Stack::retire`: append the node to the retire list; when the list has
reached `k_retire_scan_threshold`, run `scan` and keep its surviving list. -/
def retire (hazardSnapshot : List (Option Nat)) (retireList : List Nat)
    (node : Nat) : List Nat :=
  let appended := retireList ++ [node]
  if k_retire_scan_threshold ≤ appended.length then (scan hazardSnapshot appended).1
  else appended

/-! ### RingBuffer (ringbuffer.hpp)

Only the members the source defines with meaningful bodies are modelled: the
`head_`/`tail_` indices (both `size_t`, initialised to 0) and the observers
`empty()` (`head_ == tail_`) and `size()` (`tail_ - head_ + 1` in unsigned
64-bit arithmetic).  `push`/`emplace`/`pop` have empty bodies in the source
and never mutate `head_`/`tail_`; the broken `data_` member is not referenced
by any modelled operation. -/

/-- Width of `size_t` on the target platform. -/
def W64 : Nat := 2 ^ 64

structure RingBuffer where
  data_size_ : Nat
  head_ : Nat
  tail_ : Nat

namespace RingBuffer

/-- `RingBuffer(size_t data_size)`: `head_` and `tail_` start at 0. -/
def new (dataSize : Nat) : RingBuffer :=
  { data_size_ := dataSize, head_ := 0, tail_ := 0 }

/-- `RingBuffer::empty`: `head_ == tail_`. -/
def empty (r : RingBuffer) : Bool :=
  r.head_ == r.tail_

/-- `RingBuffer::size`: `tail_ - head_ + 1` in unsigned (mod `2 ^ 64`)
arithmetic; `a - b` on `size_t` is `(a + (2^64 - b % 2^64)) % 2^64`. -/
def size (r : RingBuffer) : Nat :=
  ((r.tail_ + (W64 - r.head_ % W64)) % W64 + 1) % W64

end RingBuffer

/-! ### Adaptive Stack (stack.hpp, `seraph::Stack<T>`)

State fields of the C++ class and their model:

* `spin_data_` (the spinlock-guarded `std::vector<T>`) → `spinData : List α`,
  index 0 = vector index 0 = stack bottom, last element = stack top;
* `cas_head_` (atomic pointer to the Treiber chain) → `casNodes : List α`,
  the values on the chain starting at `cas_head_`, chain head (= stack top)
  first; the empty list is the null pointer;
* `cas_size_` → `casSize`; `using_cas_` → `usingCas`;
* `contention_thread_threshold_` → `threadThreshold` (const after
  construction); `promotion_streak_threshold_` → `streakThreshold`;
* `contention_streak_` → `contentionStreak`;
  `promotion_requested_` → `promotionRequested`.
* `active_ops_` is not a state field of the sequential model: between
  operations it is 0, and its transient value on entry is the `activeNow`
  argument (`mode_mutex_` and `spin_lock_` are likewise quiescent between
  operations). -/

structure Stack (α : Type) where
  spinData : List α
  casNodes : List α
  casSize : Nat
  usingCas : Bool
  threadThreshold : Nat
  streakThreshold : Nat
  contentionStreak : Nat
  promotionRequested : Bool

namespace Stack

/-- `k_default_thread_threshold` (3). -/
def k_default_thread_threshold : Nat := 3

/-- `k_default_streak_threshold` (64). -/
def k_default_streak_threshold : Nat := 64

/-- The default constructor `Stack()`. -/
def new {α : Type} : Stack α :=
  { spinData := [], casNodes := [], casSize := 0, usingCas := false,
    threadThreshold := k_default_thread_threshold,
    streakThreshold := k_default_streak_threshold,
    contentionStreak := 0, promotionRequested := false }

/-- `Stack(size_t reserve_hint)`: the hint only pre-reserves vector capacity,
which is not observable state. -/
def newWithHint {α : Type} (reserveHint : Nat) : Stack α :=
  have _ := reserveHint
  new

/-- `Stack(size_t reserve_hint, size_t contention_thread_threshold, size_t
streak_threshold)`: clamps the thread threshold to at least 2 and the streak
threshold to at least 1. -/
def newTuned {α : Type} (reserveHint threadThreshold streakThreshold : Nat) :
    Stack α :=
  have _ := reserveHint
  { new with threadThreshold := max 2 threadThreshold,
             streakThreshold := max 1 streakThreshold }

/-- `Stack::observe_contention(active_now)`, run by `ActiveOperationScope` on
entry to `reserve`, `push`, `emplace` and `pop`. -/
def observe_contention {α : Type} (s : Stack α) (activeNow : Nat) : Stack α :=
  if s.usingCas then s
  else if s.threadThreshold ≤ activeNow then
    if s.streakThreshold ≤ s.contentionStreak + 1 then
      { s with contentionStreak := s.contentionStreak + 1,
               promotionRequested := true }
    else
      { s with contentionStreak := s.contentionStreak + 1 }
  else
    { s with contentionStreak := 0 }

/-- `Stack::cas_emplace_impl`: link a fresh node in front of `cas_head_`
(the CAS loop succeeds at once when run in isolation) and bump `cas_size_`. -/
def cas_emplace_impl {α : Type} (s : Stack α) (v : α) : Stack α :=
  { s with casNodes := v :: s.casNodes, casSize := s.casSize + 1 }

/-- `Stack::cas_pop_impl`: unlink the head node if any (CAS succeeds at once
in isolation), decrement `cas_size_`, return the moved-out value. -/
def cas_pop_impl {α : Type} (s : Stack α) : Option α × Stack α :=
  match s.casNodes with
  | [] => (none, s)
  | v :: rest => (some v, { s with casNodes := rest, casSize := s.casSize - 1 })

/-- `Stack::cas_top_impl`: copy the value of the head node, if any. -/
def cas_top_impl {α : Type} (s : Stack α) : Option α :=
  s.casNodes.head?

/-- `Stack::maybe_promote_to_cas`: if not yet promoted and promotion was
requested, move the whole array buffer (bottom first) into the CAS stack via
`cas_emplace_impl` and publish `using_cas_ = true`. -/
def maybe_promote_to_cas {α : Type} (s : Stack α) : Stack α :=
  if s.usingCas then s
  else if !s.promotionRequested then s
  else
    let t := s.spinData.foldl cas_emplace_impl { s with spinData := [] }
    { t with usingCas := true }

/-- The common prologue of `reserve`, `push`, `emplace` and `pop`:
`ActiveOperationScope` (which runs `observe_contention`) followed by
`maybe_promote_to_cas`. -/
def enter_op {α : Type} (s : Stack α) (activeNow : Nat) : Stack α :=
  maybe_promote_to_cas (observe_contention s activeNow)

/-- `Stack::push` (both overloads have the same observable behaviour): after
the prologue, dispatch on `using_cas_`; the array path appends at the back of
the vector. -/
def push {α : Type} (s : Stack α) (v : α) (activeNow : Nat) : Stack α :=
  let s1 := enter_op s activeNow
  if s1.usingCas then cas_emplace_impl s1 v
  else { s1 with spinData := s1.spinData ++ [v] }

/-- `Stack::emplace`: constructs the value `v` and then behaves as `push`. -/
def emplace {α : Type} (s : Stack α) (v : α) (activeNow : Nat) : Stack α :=
  push s v activeNow

/-- `Stack::pop`: after the prologue, the CAS path pops the chain head, the
array path removes the back of the vector; empty gives `std::nullopt`. -/
def pop {α : Type} (s : Stack α) (activeNow : Nat) : Option α × Stack α :=
  let s1 := enter_op s activeNow
  if s1.usingCas then cas_pop_impl s1
  else if s1.spinData.isEmpty then (none, s1)
  else (s1.spinData.getLast?, { s1 with spinData := s1.spinData.dropLast })

/-- `Stack::reserve(n)`: prologue, then either nothing (CAS mode) or a vector
capacity reservation (array mode), which leaves the contents untouched. -/
def reserve {α : Type} (s : Stack α) (n : Nat) (activeNow : Nat) : Stack α :=
  have _ := n
  enter_op s activeNow

/-- `Stack::top` (const; no `ActiveOperationScope`, no promotion attempt). -/
def top {α : Type} (s : Stack α) : Option α :=
  if s.usingCas then cas_top_impl s
  else s.spinData.getLast?

/-- `Stack::empty` (const; no promotion attempt). -/
def empty {α : Type} (s : Stack α) : Bool :=
  if s.usingCas then s.casNodes.isEmpty
  else s.spinData.isEmpty

/-- `Stack::size` (const; no promotion attempt). -/
def size {α : Type} (s : Stack α) : Nat :=
  if s.usingCas then s.casSize
  else s.spinData.length

/-- `Stack::is_using_cas`. -/
def is_using_cas {α : Type} (s : Stack α) : Bool :=
  s.usingCas

/-- One public operation of the adaptive stack, with the `activeNow` value
its `ActiveOperationScope` observes (the const observers have no scope). -/
inductive Op (α : Type) where
  | push (v : α) (activeNow : Nat)
  | emplace (v : α) (activeNow : Nat)
  | pop (activeNow : Nat)
  | reserve (n : Nat) (activeNow : Nat)
  | top
  | size
  | empty

/-- State transition of one public operation (const observers leave the
state unchanged). -/
def applyOp {α : Type} : Op α → Stack α → Stack α
  | .push v a, s => s.push v a
  | .emplace v a, s => s.emplace v a
  | .pop a, s => (s.pop a).2
  | .reserve n a, s => s.reserve n a
  | .top, s => s
  | .size, s => s
  | .empty, s => s

/-- State after a sequence of public operations. -/
def applyOps {α : Type} (ops : List (Op α)) (s : Stack α) : Stack α :=
  ops.foldl (fun t o => applyOp o t) s

/-- Pop repeatedly (single-threaded, so `activeNow = 1`), collecting the
returned values until `pop` yields `none` or the fuel runs out. -/
def drain {α : Type} : Nat → Stack α → List α
  | 0, _ => []
  | n + 1, s =>
    match s.pop 1 with
    | (none, _) => []
    | (some v, s1) => v :: drain n s1

/-- States reachable from a constructor by public operations. -/
inductive Reachable {α : Type} : Stack α → Prop
  | base : Reachable new
  | baseHint (h : Nat) : Reachable (newWithHint h)
  | baseTuned (h tt st : Nat) : Reachable (newTuned h tt st)
  | step (s : Stack α) (op : Op α) : Reachable s → Reachable (applyOp op s)

end Stack

/-! ### Michael–Scott Queue (queue.hpp, `seraph::Queue<T>`)

The live node chain starting at `head_` is modelled as `nodes : List
(Option α)`: entry 0 is the current dummy head node's value slot (`Node` has
`std::optional<T> value`, disengaged for the initial dummy and semantically
consumed for later dummies), and each further entry is the `value` of the
next node on the chain.  `head_` is by construction node 0 of the chain, and
`tail_` is node `tailIdx`.  `size_` → `size_`.  Each operation is run to
completion in isolation, so its hazard publish/revalidate steps always
validate and its CAS steps succeed; the helping branches (tail advancement)
are taken exactly when the entry state has a lagging tail. -/

structure Queue (α : Type) where
  nodes : List (Option α)
  tailIdx : Nat
  size_ : Nat

namespace Queue

/-- `Queue()`: one disengaged dummy node; `head_ = tail_ = dummy`. -/
def new {α : Type} : Queue α :=
  { nodes := [none], tailIdx := 0, size_ := 0 }

/-- `Queue::enqueue_node`: the loop first helps `tail_` forward to the last
node of the chain, then CASes `tail->next` from null to the new node, then
advances `tail_` onto the new node (the strong CAS succeeds in isolation)
and increments `size_`. -/
def enqueue_node {α : Type} (q : Queue α) (v : α) : Queue α :=
  { nodes := q.nodes ++ [some v], tailIdx := q.nodes.length, size_ := q.size_ + 1 }

/-- `Queue::emplace`: allocate a node holding the value, then enqueue it. -/
def emplace {α : Type} (q : Queue α) (v : α) : Queue α :=
  enqueue_node q v

/-- `Queue::push` (both overloads forward to `emplace`). -/
def push {α : Type} (q : Queue α) (v : α) : Queue α :=
  emplace q v

/-- `Queue::pop`: if `head->next` is null the queue is empty; if `head_ ==
tail_` with a non-null next, help advance `tail_` and retry; otherwise CAS
`head_` to next, making next the new dummy, and return its moved-out value.
A disengaged `next->value` would be undefined behaviour in the source; the
model returns the slot content itself (`none` exactly in that unreachable
case). -/
def pop {α : Type} (q : Queue α) : Option α × Queue α :=
  match q.nodes with
  | [] => (none, q)
  | _dummy :: rest =>
    match rest with
    | [] => (none, q)
    | v :: _ =>
      let t := if q.tailIdx = 0 then 1 else q.tailIdx
      (v, { nodes := rest, tailIdx := t - 1, size_ := q.size_ - 1 })

/-- `Queue::front_impl`: copy the value of `head->next`, absent if the chain
has no node after the dummy. -/
def front_impl {α : Type} (q : Queue α) : Option α :=
  match q.nodes with
  | [] => none
  | _dummy :: rest =>
    match rest with
    | [] => none
    | v :: _ => v

/-- `Queue::front`. -/
def front {α : Type} (q : Queue α) : Option α :=
  front_impl q

/-- `Queue::back_impl`: walk from `head->next` to the node whose `next` is
null and copy its value; absent if the chain has no node after the dummy. -/
def back_impl {α : Type} (q : Queue α) : Option α :=
  match q.nodes with
  | [] => none
  | _dummy :: rest =>
    match rest.getLast? with
    | none => none
    | some v => v

/-- `Queue::back`. -/
def back {α : Type} (q : Queue α) : Option α :=
  back_impl q

/-- `Queue::size`: the relaxed `size_` counter. -/
def size {α : Type} (q : Queue α) : Nat :=
  q.size_

/-- `Queue::empty`: `size_ == 0`. -/
def empty {α : Type} (q : Queue α) : Bool :=
  q.size_ == 0

/-- States reachable from the constructor by public operations (`front`,
`back`, `size` and `empty` are const and do not change the state). -/
inductive Reachable {α : Type} : Queue α → Prop
  | base : Reachable new
  | enq (q : Queue α) (v : α) : Reachable q → Reachable (q.enqueue_node v)
  | deq (q : Queue α) : Reachable q → Reachable (q.pop).2

end Queue

end Seraph

/-! ## Helper lemmas for scan / retire -/

namespace Seraph

theorem scan_fst_eq_filter (snap : List (Option Nat)) (l : List Nat) :
    (scan snap l).1 = l.filter (fun m => keepNode snap m) := by
  induction l with
  | nil => rfl
  | cons n rest ih =>
    simp only [scan, List.filter_cons]
    by_cases h : keepNode snap n
    · simp [h, ih]
    · simp [h, ih]

theorem scan_snd_eq_filter (snap : List (Option Nat)) (l : List Nat) :
    (scan snap l).2 = l.filter (fun m => !keepNode snap m) := by
  induction l with
  | nil => rfl
  | cons n rest ih =>
    simp only [scan, List.filter_cons]
    by_cases h : keepNode snap n
    · simp [h, ih]
    · simp [h, ih]

theorem keepNode_iff (snap : List (Option Nat)) (m : Nat) :
    keepNode snap m = true ↔ some m ∈ snap := by
  simp only [keepNode, List.any_eq_true, beq_iff_eq]
  constructor
  · rintro ⟨x, hx, rfl⟩; exact hx
  · intro h; exact ⟨some m, h, rfl⟩

end Seraph

/-! ## Helper lemmas for the adaptive stack -/

namespace Seraph.Stack

@[simp] theorem observe_spinData {α : Type} (s : Stack α) (a : Nat) :
    (observe_contention s a).spinData = s.spinData := by
  unfold observe_contention
  split
  · rfl
  split
  · split <;> rfl
  · rfl

@[simp] theorem observe_casNodes {α : Type} (s : Stack α) (a : Nat) :
    (observe_contention s a).casNodes = s.casNodes := by
  unfold observe_contention
  split
  · rfl
  split
  · split <;> rfl
  · rfl

@[simp] theorem observe_casSize {α : Type} (s : Stack α) (a : Nat) :
    (observe_contention s a).casSize = s.casSize := by
  unfold observe_contention
  split
  · rfl
  split
  · split <;> rfl
  · rfl

@[simp] theorem observe_usingCas {α : Type} (s : Stack α) (a : Nat) :
    (observe_contention s a).usingCas = s.usingCas := by
  unfold observe_contention
  split
  · rfl
  split
  · split <;> rfl
  · rfl

@[simp] theorem observe_threadThreshold {α : Type} (s : Stack α) (a : Nat) :
    (observe_contention s a).threadThreshold = s.threadThreshold := by
  unfold observe_contention
  split
  · rfl
  split
  · split <;> rfl
  · rfl

@[simp] theorem observe_streakThreshold {α : Type} (s : Stack α) (a : Nat) :
    (observe_contention s a).streakThreshold = s.streakThreshold := by
  unfold observe_contention
  split
  · rfl
  split
  · split <;> rfl
  · rfl

theorem observe_requested_true {α : Type} (s : Stack α) (a : Nat)
    (h : s.promotionRequested = true) :
    (observe_contention s a).promotionRequested = true := by
  unfold observe_contention
  split
  · exact h
  split
  · split
    · rfl
    · exact h
  · exact h

theorem observe_low {α : Type} (s : Stack α) (a : Nat)
    (hu : s.usingCas = false) (h : a < s.threadThreshold) :
    observe_contention s a = { s with contentionStreak := 0 } := by
  simp [observe_contention, hu, Nat.not_le.mpr h]

theorem mp_usingCas {α : Type} (s : Stack α) (h : s.usingCas = true) :
    maybe_promote_to_cas s = s := by
  simp [maybe_promote_to_cas, h]

theorem mp_not_requested {α : Type} (s : Stack α)
    (h : s.promotionRequested = false) :
    maybe_promote_to_cas s = s := by
  simp [maybe_promote_to_cas, h]

theorem foldl_cas_emplace {α : Type} (l : List α) (t : Stack α) :
    l.foldl cas_emplace_impl t =
      { t with casNodes := l.reverse ++ t.casNodes,
               casSize := t.casSize + l.length } := by
  induction l generalizing t with
  | nil =>
    cases t
    simp
  | cons v l ih =>
    cases t
    simp [List.foldl_cons, cas_emplace_impl, ih, List.append_assoc]
    omega

theorem mp_promoted {α : Type} (s : Stack α) (h1 : s.usingCas = false)
    (h2 : s.promotionRequested = true) :
    maybe_promote_to_cas s =
      { s with spinData := [], casNodes := s.spinData.reverse ++ s.casNodes,
               casSize := s.casSize + s.spinData.length, usingCas := true } := by
  cases s with
  | mk sd cn cs uc tt st ck pr =>
    simp only at h1 h2
    subst h1; subst h2
    simp [maybe_promote_to_cas, foldl_cas_emplace]

theorem enter_op_usingCas {α : Type} (s : Stack α) (a : Nat)
    (h : s.usingCas = true) :
    enter_op s a = s := by
  unfold enter_op
  have hobs : observe_contention s a = s := by simp [observe_contention, h]
  rw [hobs]
  exact mp_usingCas s h

theorem enter_op_cases {α : Type} (s : Stack α) (a : Nat)
    (hu : s.usingCas = false) :
    (enter_op s a = observe_contention s a ∧ (enter_op s a).usingCas = false) ∨
    (enter_op s a =
      { observe_contention s a with
        spinData := [],
        casNodes := s.spinData.reverse ++ s.casNodes,
        casSize := s.casSize + s.spinData.length,
        usingCas := true }) := by
  by_cases hr : (observe_contention s a).promotionRequested
  · right
    unfold enter_op
    rw [mp_promoted (observe_contention s a) (by simp [hu]) hr]
    simp
  · left
    unfold enter_op
    rw [mp_not_requested (observe_contention s a) (Bool.eq_false_iff.mpr hr)]
    simp [hu]

end Seraph.Stack

/-! ## Empty-state read lemmas -/

namespace Seraph.Stack

theorem pop_empty {α : Type} (s : Stack α) (a : Nat)
    (hs1 : s.spinData = []) (hs2 : s.casNodes = []) :
    (s.pop a).1 = none := by
  by_cases hu : s.usingCas
  · unfold pop
    rw [enter_op_usingCas s a hu]
    simp [hu, cas_pop_impl, hs2]
  · have hu' : s.usingCas = false := Bool.eq_false_iff.mpr hu
    rcases enter_op_cases s a hu' with ⟨he, hf⟩ | he
    · unfold pop
      rw [he]
      simp [hu', hs1]
    · unfold pop
      rw [he]
      simp [hs1, hs2, cas_pop_impl]

theorem top_empty {α : Type} (s : Stack α)
    (hs1 : s.spinData = []) (hs2 : s.casNodes = []) :
    s.top = none := by
  unfold top cas_top_impl
  by_cases hu : s.usingCas
  · simp [hu, hs2]
  · simp [hu, hs1]

end Seraph.Stack

namespace Seraph.Queue

theorem reads_empty {α : Type} (q : Queue α) (hq : q.nodes.length ≤ 1) :
    (q.pop).1 = none ∧ q.front = none ∧ q.back = none := by
  rcases hn : q.nodes with _ | ⟨d, rest⟩
  · simp [pop, front, front_impl, back, back_impl, hn]
  · rcases hr : rest with _ | ⟨v, r2⟩
    · simp [pop, front, front_impl, back, back_impl, hn, hr]
    · rw [hn, hr] at hq
      simp at hq

end Seraph.Queue

/-! ## Claim theorems (part 1) -/

/-- C1: on the adaptive stack used single-threaded (every operation observes
`activeNow = 1`) from the freshly constructed state, after push(1), push(2),
push(3): `top()` returns 3, `size()` returns 3, three successive `pop()`
calls return 3, 2, 1, and the fourth `pop()` returns `none`. -/
theorem stack_single_thread_lifo_scenario :
    Seraph.Stack.top (Seraph.Stack.push (Seraph.Stack.push (Seraph.Stack.push
        (Seraph.Stack.new : Seraph.Stack Nat) 1 1) 2 1) 3 1) = some 3 ∧
      Seraph.Stack.size (Seraph.Stack.push (Seraph.Stack.push
        (Seraph.Stack.push (Seraph.Stack.new : Seraph.Stack Nat) 1 1) 2 1)
          3 1) = 3 ∧
      (Seraph.Stack.pop (Seraph.Stack.push (Seraph.Stack.push
        (Seraph.Stack.push (Seraph.Stack.new : Seraph.Stack Nat) 1 1) 2 1)
          3 1) 1).1 = some 3 ∧
      (Seraph.Stack.pop (Seraph.Stack.pop (Seraph.Stack.push
        (Seraph.Stack.push (Seraph.Stack.push
          (Seraph.Stack.new : Seraph.Stack Nat) 1 1) 2 1) 3 1) 1).2 1).1 =
        some 2 ∧
      (Seraph.Stack.pop (Seraph.Stack.pop (Seraph.Stack.pop
        (Seraph.Stack.push (Seraph.Stack.push (Seraph.Stack.push
          (Seraph.Stack.new : Seraph.Stack Nat) 1 1) 2 1) 3 1) 1).2 1).2
            1).1 = some 1 ∧
      (Seraph.Stack.pop (Seraph.Stack.pop (Seraph.Stack.pop (Seraph.Stack.pop
        (Seraph.Stack.push (Seraph.Stack.push (Seraph.Stack.push
          (Seraph.Stack.new : Seraph.Stack Nat) 1 1) 2 1) 3 1) 1).2 1).2
            1).2 1).1 = none := by
  decide

/-- C2: on the queue used single-threaded from the freshly constructed
state, after enqueuing 10, 20, 30 in that order: `front()` returns 10,
`back()` returns 30, `size()` returns 3, three successive `pop()` calls
return 10, 20, 30 (FIFO), and the fourth `pop()` returns `none`. -/
theorem queue_single_thread_fifo_scenario :
    Seraph.Queue.front (Seraph.Queue.push (Seraph.Queue.push
      (Seraph.Queue.push (Seraph.Queue.new : Seraph.Queue Nat) 10) 20) 30) =
        some 10 ∧
      Seraph.Queue.back (Seraph.Queue.push (Seraph.Queue.push
        (Seraph.Queue.push (Seraph.Queue.new : Seraph.Queue Nat) 10) 20)
          30) = some 30 ∧
      Seraph.Queue.size (Seraph.Queue.push (Seraph.Queue.push
        (Seraph.Queue.push (Seraph.Queue.new : Seraph.Queue Nat) 10) 20)
          30) = 3 ∧
      (Seraph.Queue.pop (Seraph.Queue.push (Seraph.Queue.push
        (Seraph.Queue.push (Seraph.Queue.new : Seraph.Queue Nat) 10) 20)
          30)).1 = some 10 ∧
      (Seraph.Queue.pop (Seraph.Queue.pop (Seraph.Queue.push
        (Seraph.Queue.push (Seraph.Queue.push
          (Seraph.Queue.new : Seraph.Queue Nat) 10) 20) 30)).2).1 =
        some 20 ∧
      (Seraph.Queue.pop (Seraph.Queue.pop (Seraph.Queue.pop
        (Seraph.Queue.push (Seraph.Queue.push (Seraph.Queue.push
          (Seraph.Queue.new : Seraph.Queue Nat) 10) 20) 30)).2).2).1 =
        some 30 ∧
      (Seraph.Queue.pop (Seraph.Queue.pop (Seraph.Queue.pop (Seraph.Queue.pop
        (Seraph.Queue.push (Seraph.Queue.push (Seraph.Queue.push
          (Seraph.Queue.new : Seraph.Queue Nat) 10) 20) 30)).2).2).2).1 =
        none := by
  decide

/-- C3: on every empty adaptive stack (both internal buffers empty, any mode
and any contention-counter values) and every empty queue (no node after the
dummy head), the reading operations — stack `pop`/`top` and queue
`pop`/`front`/`back` — return `none`; all are total functions of the model,
so no fault occurs.  The witness instantiates the freshly constructed
containers. -/
theorem empty_container_reads_absent (α : Type) (s : Seraph.Stack α)
    (q : Seraph.Queue α) (a : Nat)
    (hs1 : s.spinData = []) (hs2 : s.casNodes = [])
    (hq : q.nodes.length ≤ 1) :
    (s.pop a).1 = none ∧ s.top = none ∧
      (q.pop).1 = none ∧ q.front = none ∧ q.back = none := by
  obtain ⟨h1, h2, h3⟩ := Seraph.Queue.reads_empty q hq
  exact ⟨Seraph.Stack.pop_empty s a hs1 hs2, Seraph.Stack.top_empty s hs1 hs2,
    h1, h2, h3⟩

/-- Witness for C3 at the freshly constructed stack and queue. -/
theorem empty_container_reads_absent_witness :
    ((Seraph.Stack.new : Seraph.Stack Nat).pop 1).1 = none ∧
      (Seraph.Stack.new : Seraph.Stack Nat).top = none ∧
      ((Seraph.Queue.new : Seraph.Queue Nat).pop).1 = none ∧
      (Seraph.Queue.new : Seraph.Queue Nat).front = none ∧
      (Seraph.Queue.new : Seraph.Queue Nat).back = none :=
  empty_container_reads_absent Nat Seraph.Stack.new Seraph.Queue.new 1
    rfl rfl (by decide)

/-- C8: `scan` keeps exactly the retired nodes that appear in the hazard
snapshot, in their original order (it is the stable filter of the retire
list by membership in the snapshot), and frees exactly the others; `retire`
appends the node and hands the list to `scan` exactly when the appended list
has reached `k_retire_scan_threshold` (64) entries. -/
theorem hazard_scan_retire_characterization (snap : List (Option Nat))
    (l : List Nat) (n : Nat) :
    (Seraph.scan snap l).1 = l.filter (fun m => Seraph.keepNode snap m) ∧
      (Seraph.scan snap l).2 = l.filter (fun m => !Seraph.keepNode snap m) ∧
      (∀ m, m ∈ (Seraph.scan snap l).1 ↔ m ∈ l ∧ some m ∈ snap) ∧
      (∀ m, m ∈ (Seraph.scan snap l).2 ↔ m ∈ l ∧ some m ∉ snap) ∧
      Seraph.retire snap l n =
        (if Seraph.k_retire_scan_threshold ≤ l.length + 1
         then (Seraph.scan snap (l ++ [n])).1 else l ++ [n]) := by
  refine ⟨Seraph.scan_fst_eq_filter snap l, Seraph.scan_snd_eq_filter snap l,
    ?_, ?_, ?_⟩
  · intro m
    rw [Seraph.scan_fst_eq_filter snap l, List.mem_filter,
      Seraph.keepNode_iff snap m]
  · intro m
    rw [Seraph.scan_snd_eq_filter snap l, List.mem_filter]
    constructor
    · rintro ⟨hm, hk⟩
      refine ⟨hm, fun hmem => ?_⟩
      rw [Bool.not_eq_true'] at hk
      exact absurd ((Seraph.keepNode_iff snap m).mpr hmem)
        (by simp [hk])
    · rintro ⟨hm, hk⟩
      refine ⟨hm, ?_⟩
      have : ¬ Seraph.keepNode snap m = true := fun hc =>
        hk ((Seraph.keepNode_iff snap m).mp hc)
      simp [Bool.not_eq_true] at this
      simp [this]
  · unfold Seraph.retire
    simp [List.length_append]

/-! ## Promotion monotonicity lemmas -/

namespace Seraph.Stack

theorem applyOp_mono {α : Type} (s : Stack α) (op : Op α)
    (h1 : s.usingCas = true) :
    (applyOp op s).usingCas = true ∧ (applyOp op s).spinData = s.spinData := by
  cases op with
  | push v a =>
    simp [applyOp, push, enter_op_usingCas s a h1, h1, cas_emplace_impl]
  | emplace v a =>
    simp [applyOp, emplace, push, enter_op_usingCas s a h1, h1, cas_emplace_impl]
  | pop a =>
    cases hc : s.casNodes with
    | nil => simp [applyOp, pop, enter_op_usingCas s a h1, h1, cas_pop_impl, hc]
    | cons v rest =>
      simp [applyOp, pop, enter_op_usingCas s a h1, h1, cas_pop_impl, hc]
  | reserve n a =>
    simp [applyOp, reserve, enter_op_usingCas s a h1, h1]
  | top => exact ⟨h1, rfl⟩
  | size => exact ⟨h1, rfl⟩
  | empty => exact ⟨h1, rfl⟩

theorem applyOp_prominv {α : Type} (s : Stack α) (op : Op α)
    (h : s.usingCas = true → s.spinData = []) :
    (applyOp op s).usingCas = true → (applyOp op s).spinData = [] := by
  by_cases hu : s.usingCas
  · intro _
    exact ((applyOp_mono s op hu).2).trans (h hu)
  · have hu' : s.usingCas = false := Bool.eq_false_iff.mpr hu
    cases op with
    | push v a =>
      rcases enter_op_cases s a hu' with ⟨he, _hf⟩ | he
      · simp [applyOp, push, he, hu']
      · simp [applyOp, push, he, cas_emplace_impl]
    | emplace v a =>
      rcases enter_op_cases s a hu' with ⟨he, _hf⟩ | he
      · simp [applyOp, emplace, push, he, hu']
      · simp [applyOp, emplace, push, he, cas_emplace_impl]
    | pop a =>
      rcases enter_op_cases s a hu' with ⟨he, _hf⟩ | he
      · simp [applyOp, pop, he, hu', apply_ite]
      · cases hcn : (s.spinData.reverse ++ s.casNodes) with
        | nil => simp [applyOp, pop, he, cas_pop_impl, hcn]
        | cons v rest => simp [applyOp, pop, he, cas_pop_impl, hcn]
    | reserve n a =>
      rcases enter_op_cases s a hu' with ⟨he, _hf⟩ | he
      · simp [applyOp, reserve, he, hu']
      · simp [applyOp, reserve, he]
    | top => intro hc; exact absurd hc (by simp [applyOp, hu'])
    | size => intro hc; exact absurd hc (by simp [applyOp, hu'])
    | empty => intro hc; exact absurd hc (by simp [applyOp, hu'])

theorem applyOps_keep {α : Type} (ops : List (Op α)) (s : Stack α)
    (h1 : s.usingCas = true) (h2 : s.spinData = []) :
    (applyOps ops s).usingCas = true ∧ (applyOps ops s).spinData = [] := by
  induction ops generalizing s with
  | nil => exact ⟨h1, h2⟩
  | cons op ops ih =>
    have hstep := applyOp_mono s op h1
    exact ih (applyOp op s) hstep.1 (hstep.2.trans h2)

theorem reachable_prominv {α : Type} {s : Stack α} (h : Reachable s) :
    s.usingCas = true → s.spinData = [] := by
  induction h with
  | base => intro hc; simp [new] at hc
  | baseHint hint => intro hc; simp [newWithHint, new] at hc
  | baseTuned hint tt st => intro hc; simp [newTuned, new] at hc
  | step s op _hr ih => exact applyOp_prominv s op ih

end Seraph.Stack

/-! ## Claim theorems (part 2) -/

/-- C4: on every reachable adaptive-stack state in which `using_cas_` is
true, the array buffer is empty, and after every further sequence of public
operations `using_cas_` is still true and the array buffer is still empty
(no operation resets the flag or writes to the buffer). -/
theorem stack_promotion_one_way (α : Type) (s : Seraph.Stack α)
    (hr : Seraph.Stack.Reachable s) (hc : s.usingCas = true)
    (ops : List (Seraph.Stack.Op α)) :
    s.spinData = [] ∧ (Seraph.Stack.applyOps ops s).usingCas = true ∧
      (Seraph.Stack.applyOps ops s).spinData = [] := by
  have h2 := Seraph.Stack.reachable_prominv hr hc
  have h3 := Seraph.Stack.applyOps_keep ops s hc h2
  exact ⟨h2, h3.1, h3.2⟩

/-- Witness for C4: a tuned stack (thread threshold 2, streak threshold 1)
promotes during a push that observes two active operations; afterwards a
pop leaves the flag set and the buffer empty. -/
theorem stack_promotion_one_way_witness :
    (Seraph.Stack.applyOp (Seraph.Stack.Op.push 5 2)
        (Seraph.Stack.newTuned 0 2 1 : Seraph.Stack Nat)).spinData = [] ∧
      (Seraph.Stack.applyOps [Seraph.Stack.Op.pop 1]
        (Seraph.Stack.applyOp (Seraph.Stack.Op.push 5 2)
          (Seraph.Stack.newTuned 0 2 1 : Seraph.Stack Nat))).usingCas = true ∧
      (Seraph.Stack.applyOps [Seraph.Stack.Op.pop 1]
        (Seraph.Stack.applyOp (Seraph.Stack.Op.push 5 2)
          (Seraph.Stack.newTuned 0 2 1 : Seraph.Stack Nat))).spinData = [] :=
  stack_promotion_one_way Nat
    (Seraph.Stack.applyOp (Seraph.Stack.Op.push 5 2)
      (Seraph.Stack.newTuned 0 2 1 : Seraph.Stack Nat))
    (Seraph.Stack.Reachable.step (Seraph.Stack.newTuned 0 2 1)
      (Seraph.Stack.Op.push 5 2) (Seraph.Stack.Reachable.baseTuned 0 2 1))
    (by decide) [Seraph.Stack.Op.pop 1]

/-! ## Claim theorems (part 3) -/

/-- C6 counterexample: an array-mode stack whose promotion latch is set.
Calling the const observer `top()` (likewise `size()` or `empty()`) does not
perform the maybe-promote step — the state is completely unchanged and the
stack is still not in link mode afterwards, contradicting the claim that
every one of push/pop/top/size/empty promotes first. -/
theorem stack_observer_ops_skip_promotion :
    (Seraph.Stack.applyOp Seraph.Stack.Op.top
        ({ spinData := [1], casNodes := [], casSize := 0, usingCas := false,
           threadThreshold := 2, streakThreshold := 1, contentionStreak := 0,
           promotionRequested := true } : Seraph.Stack Nat)).usingCas = false ∧
      (Seraph.Stack.applyOp Seraph.Stack.Op.size
        ({ spinData := [1], casNodes := [], casSize := 0, usingCas := false,
           threadThreshold := 2, streakThreshold := 1, contentionStreak := 0,
           promotionRequested := true } : Seraph.Stack Nat)).usingCas = false ∧
      (Seraph.Stack.applyOp Seraph.Stack.Op.empty
        ({ spinData := [1], casNodes := [], casSize := 0, usingCas := false,
           threadThreshold := 2, streakThreshold := 1, contentionStreak := 0,
           promotionRequested := true } : Seraph.Stack Nat)).usingCas = false := by
  decide

/-- C6 amended: on every array-mode stack whose promotion latch is set, each
of the mutating operations push, emplace, pop and reserve performs the
maybe-promote step before dispatching, so after any one such call the stack
is in link mode; the const observers top, size and empty dispatch without
promoting and leave the state unchanged. -/
theorem stack_mutating_ops_promote (α : Type) (s : Seraph.Stack α) (v : α)
    (n a : Nat) (h1 : s.usingCas = false) (h2 : s.promotionRequested = true) :
    (s.push v a).usingCas = true ∧ (s.emplace v a).usingCas = true ∧
      ((s.pop a).2).usingCas = true ∧ (s.reserve n a).usingCas = true ∧
      Seraph.Stack.applyOp Seraph.Stack.Op.top s = s ∧
      Seraph.Stack.applyOp Seraph.Stack.Op.size s = s ∧
      Seraph.Stack.applyOp Seraph.Stack.Op.empty s = s := by
  have hobs_u : (Seraph.Stack.observe_contention s a).usingCas = false := by
    simp [h1]
  have hobs_r := Seraph.Stack.observe_requested_true s a h2
  have hkey : (Seraph.Stack.enter_op s a).usingCas = true := by
    unfold Seraph.Stack.enter_op
    rw [Seraph.Stack.mp_promoted (Seraph.Stack.observe_contention s a)
      hobs_u hobs_r]
  refine ⟨?_, ?_, ?_, ?_, rfl, rfl, rfl⟩
  · simp [Seraph.Stack.push, hkey, Seraph.Stack.cas_emplace_impl]
  · simp [Seraph.Stack.emplace, Seraph.Stack.push, hkey,
      Seraph.Stack.cas_emplace_impl]
  · cases hcn : (Seraph.Stack.enter_op s a).casNodes with
    | nil => simp [Seraph.Stack.pop, hkey, Seraph.Stack.cas_pop_impl, hcn]
    | cons w rest =>
      simp [Seraph.Stack.pop, hkey, Seraph.Stack.cas_pop_impl, hcn]
  · simp [Seraph.Stack.reserve, hkey]

/-- Witness for C6 amended at a concrete latched array-mode stack. -/
theorem stack_mutating_ops_promote_witness :
    (Seraph.Stack.push
        ({ spinData := [1], casNodes := [], casSize := 0, usingCas := false,
           threadThreshold := 3, streakThreshold := 64, contentionStreak := 0,
           promotionRequested := true } : Seraph.Stack Nat) 7 1).usingCas = true ∧
      (Seraph.Stack.emplace
        ({ spinData := [1], casNodes := [], casSize := 0, usingCas := false,
           threadThreshold := 3, streakThreshold := 64, contentionStreak := 0,
           promotionRequested := true } : Seraph.Stack Nat) 7 1).usingCas = true ∧
      ((Seraph.Stack.pop
        ({ spinData := [1], casNodes := [], casSize := 0, usingCas := false,
           threadThreshold := 3, streakThreshold := 64, contentionStreak := 0,
           promotionRequested := true } : Seraph.Stack Nat) 1).2).usingCas = true ∧
      (Seraph.Stack.reserve
        ({ spinData := [1], casNodes := [], casSize := 0, usingCas := false,
           threadThreshold := 3, streakThreshold := 64, contentionStreak := 0,
           promotionRequested := true } : Seraph.Stack Nat) 4 1).usingCas = true ∧
      Seraph.Stack.applyOp Seraph.Stack.Op.top
        ({ spinData := [1], casNodes := [], casSize := 0, usingCas := false,
           threadThreshold := 3, streakThreshold := 64, contentionStreak := 0,
           promotionRequested := true } : Seraph.Stack Nat) =
        ({ spinData := [1], casNodes := [], casSize := 0, usingCas := false,
           threadThreshold := 3, streakThreshold := 64, contentionStreak := 0,
           promotionRequested := true } : Seraph.Stack Nat) ∧
      Seraph.Stack.applyOp Seraph.Stack.Op.size
        ({ spinData := [1], casNodes := [], casSize := 0, usingCas := false,
           threadThreshold := 3, streakThreshold := 64, contentionStreak := 0,
           promotionRequested := true } : Seraph.Stack Nat) =
        ({ spinData := [1], casNodes := [], casSize := 0, usingCas := false,
           threadThreshold := 3, streakThreshold := 64, contentionStreak := 0,
           promotionRequested := true } : Seraph.Stack Nat) ∧
      Seraph.Stack.applyOp Seraph.Stack.Op.empty
        ({ spinData := [1], casNodes := [], casSize := 0, usingCas := false,
           threadThreshold := 3, streakThreshold := 64, contentionStreak := 0,
           promotionRequested := true } : Seraph.Stack Nat) =
        ({ spinData := [1], casNodes := [], casSize := 0, usingCas := false,
           threadThreshold := 3, streakThreshold := 64, contentionStreak := 0,
           promotionRequested := true } : Seraph.Stack Nat) :=
  stack_mutating_ops_promote Nat
    ({ spinData := [1], casNodes := [], casSize := 0, usingCas := false,
       threadThreshold := 3, streakThreshold := 64, contentionStreak := 0,
       promotionRequested := true } : Seraph.Stack Nat) 7 4 1 rfl rfl

/-! ## Frame lemmas for reserve -/

namespace Seraph.Stack

theorem isEmpty_reverse {α : Type} (l : List α) :
    l.reverse.isEmpty = l.isEmpty := by
  cases l with
  | nil => rfl
  | cons x t =>
    rw [List.reverse_cons]
    cases h : t.reverse with
    | nil => simp
    | cons y u => simp

end Seraph.Stack

/-- C7: `reserve(n)` never changes `size()`, `empty()` or `top()`; when the
stack is already in link mode it is a complete no-op on the state.  The
hypothesis is the structural invariant of array mode (the link stack is
still empty), which holds in every reachable array-mode state. -/
theorem stack_reserve_frame (α : Type) (s : Seraph.Stack α) (n a : Nat)
    (hinv : s.usingCas = false → s.casNodes = [] ∧ s.casSize = 0) :
    Seraph.Stack.size (s.reserve n a) = Seraph.Stack.size s ∧
      Seraph.Stack.empty (s.reserve n a) = Seraph.Stack.empty s ∧
      Seraph.Stack.top (s.reserve n a) = Seraph.Stack.top s ∧
      (s.usingCas = true → s.reserve n a = s) := by
  by_cases hu : s.usingCas
  · have he : s.reserve n a = s := by
      unfold Seraph.Stack.reserve
      exact Seraph.Stack.enter_op_usingCas s a hu
    exact ⟨by rw [he], by rw [he], by rw [he], fun _ => he⟩
  · have hu' : s.usingCas = false := Bool.eq_false_iff.mpr hu
    obtain ⟨hc, hs0⟩ := hinv hu'
    rcases Seraph.Stack.enter_op_cases s a hu' with ⟨he, _hf⟩ | he
    · refine ⟨?_, ?_, ?_, fun hcc => absurd hcc hu⟩
      · simp [Seraph.Stack.reserve, he, Seraph.Stack.size, hu']
      · simp [Seraph.Stack.empty, Seraph.Stack.reserve, he, hu']
      · simp [Seraph.Stack.top, Seraph.Stack.reserve, he, hu']
    · refine ⟨?_, ?_, ?_, fun hcc => absurd hcc hu⟩
      · simp [Seraph.Stack.reserve, he, Seraph.Stack.size, hu', hs0]
      · simp [Seraph.Stack.empty, Seraph.Stack.reserve, he, hu', hc,
          Seraph.Stack.isEmpty_reverse]
      · simp [Seraph.Stack.top, Seraph.Stack.cas_top_impl,
          Seraph.Stack.reserve, he, hu', hc, List.head?_reverse]

/-- Witness for C7 at a concrete array-mode stack and at a concrete
link-mode stack is obtained from the array-mode instance; size, empty and
top are unchanged by `reserve(16)`. -/
theorem stack_reserve_frame_witness :
    Seraph.Stack.size ((
        { spinData := [1, 2], casNodes := [], casSize := 0, usingCas := false,
          threadThreshold := 3, streakThreshold := 64, contentionStreak := 0,
          promotionRequested := false } : Seraph.Stack Nat).reserve 16 1) =
      Seraph.Stack.size
        ({ spinData := [1, 2], casNodes := [], casSize := 0, usingCas := false,
           threadThreshold := 3, streakThreshold := 64, contentionStreak := 0,
           promotionRequested := false } : Seraph.Stack Nat) ∧
      Seraph.Stack.empty ((
        { spinData := [1, 2], casNodes := [], casSize := 0, usingCas := false,
          threadThreshold := 3, streakThreshold := 64, contentionStreak := 0,
          promotionRequested := false } : Seraph.Stack Nat).reserve 16 1) =
      Seraph.Stack.empty
        ({ spinData := [1, 2], casNodes := [], casSize := 0, usingCas := false,
           threadThreshold := 3, streakThreshold := 64, contentionStreak := 0,
           promotionRequested := false } : Seraph.Stack Nat) ∧
      Seraph.Stack.top ((
        { spinData := [1, 2], casNodes := [], casSize := 0, usingCas := false,
          threadThreshold := 3, streakThreshold := 64, contentionStreak := 0,
          promotionRequested := false } : Seraph.Stack Nat).reserve 16 1) =
      Seraph.Stack.top
        ({ spinData := [1, 2], casNodes := [], casSize := 0, usingCas := false,
           threadThreshold := 3, streakThreshold := 64, contentionStreak := 0,
           promotionRequested := false } : Seraph.Stack Nat) ∧
      (({ spinData := [1, 2], casNodes := [], casSize := 0, usingCas := false,
          threadThreshold := 3, streakThreshold := 64, contentionStreak := 0,
          promotionRequested := false } : Seraph.Stack Nat).usingCas = true →
        ({ spinData := [1, 2], casNodes := [], casSize := 0, usingCas := false,
           threadThreshold := 3, streakThreshold := 64, contentionStreak := 0,
           promotionRequested := false } : Seraph.Stack Nat).reserve 16 1 =
        ({ spinData := [1, 2], casNodes := [], casSize := 0, usingCas := false,
           threadThreshold := 3, streakThreshold := 64, contentionStreak := 0,
           promotionRequested := false } : Seraph.Stack Nat)) :=
  stack_reserve_frame Nat
    ({ spinData := [1, 2], casNodes := [], casSize := 0, usingCas := false,
       threadThreshold := 3, streakThreshold := 64, contentionStreak := 0,
       promotionRequested := false } : Seraph.Stack Nat) 16 1
    (fun _ => ⟨rfl, rfl⟩)

/-! ## Drain lemmas for the migration claim -/

namespace Seraph.Stack

theorem reverse_getLast_cons {α : Type} (l : List α) (h : l ≠ []) :
    l.reverse = l.getLast h :: l.dropLast.reverse := by
  conv_lhs => rw [← List.dropLast_append_getLast h]
  rw [List.reverse_append]
  simp

theorem drain_cas {α : Type} (n : Nat) (s : Stack α) (hu : s.usingCas = true) :
    drain n s = s.casNodes.take n := by
  induction n generalizing s with
  | zero => simp [drain]
  | succ n ih =>
    have hpop : s.pop 1 = cas_pop_impl s := by
      unfold pop
      rw [enter_op_usingCas s 1 hu]
      simp [hu]
    cases hc : s.casNodes with
    | nil =>
      unfold drain
      rw [hpop]
      simp [cas_pop_impl, hc]
    | cons v rest =>
      unfold drain
      rw [hpop]
      simp only [cas_pop_impl, hc]
      rw [ih { s with casNodes := rest, casSize := s.casSize - 1 } (by simp [hu])]
      simp

theorem drain_array {α : Type} (n : Nat) (s : Stack α)
    (hu : s.usingCas = false) (hr : s.promotionRequested = false)
    (ht : 2 ≤ s.threadThreshold) :
    drain n s = s.spinData.reverse.take n := by
  induction n generalizing s with
  | zero => simp [drain]
  | succ n ih =>
    have h1 : (1 : Nat) < s.threadThreshold := lt_of_lt_of_le one_lt_two ht
    have hmp : enter_op s 1 = { s with contentionStreak := 0 } := by
      unfold enter_op
      rw [observe_low s 1 hu h1]
      exact mp_not_requested _ (by simp [hr])
    cases hsd : s.spinData with
    | nil =>
      have hpop : s.pop 1 = (none, { s with contentionStreak := 0 }) := by
        unfold pop
        rw [hmp]
        simp [hu, hsd]
      unfold drain
      rw [hpop]
      simp [hsd]
    | cons x xs =>
      have hne : s.spinData ≠ [] := by rw [hsd]; simp
      have hlast : s.spinData.getLast? = some (s.spinData.getLast hne) :=
        List.getLast?_eq_getLast_of_ne_nil hne
      have hpop : s.pop 1 =
          (some (s.spinData.getLast hne),
            { s with contentionStreak := 0,
                     spinData := s.spinData.dropLast }) := by
        unfold pop
        rw [hmp]
        have hemp : ({ s with contentionStreak := 0 } :
            Stack α).spinData.isEmpty = false := by
          simp [hsd]
        simp [hu, hemp, hlast]
      unfold drain
      rw [hpop]
      simp only []
      rw [ih { s with contentionStreak := 0, spinData := s.spinData.dropLast }
        (by simp [hu]) (by simp [hr]) (by simp; omega)]
      rw [← hsd]
      rw [reverse_getLast_cons s.spinData hne]
      simp

end Seraph.Stack

/-- C5: migrating an array-mode stack (link stack still empty, as in every
reachable array-mode state; default-style thresholds, latch not yet set) to
link mode preserves the relative order of all values: the promoted link
chain is the reverse of the array (array bottom = chain tail = link-stack
bottom), and the first `n` popped values after migration equal the first `n`
popped values had no migration occurred. -/
theorem stack_migration_preserves_lifo (α : Type) (s : Seraph.Stack α)
    (n : Nat) (hu : s.usingCas = false) (hc : s.casNodes = [])
    (ht : 2 ≤ s.threadThreshold) (hr : s.promotionRequested = false) :
    (Seraph.Stack.maybe_promote_to_cas
        { s with promotionRequested := true }).usingCas = true ∧
      (Seraph.Stack.maybe_promote_to_cas
        { s with promotionRequested := true }).casNodes = s.spinData.reverse ∧
      Seraph.Stack.drain n (Seraph.Stack.maybe_promote_to_cas
        { s with promotionRequested := true }) = Seraph.Stack.drain n s := by
  have _hr := hr
  have hm := Seraph.Stack.mp_promoted
    ({ s with promotionRequested := true } : Seraph.Stack α)
    (by simp [hu]) (by simp)
  refine ⟨by rw [hm], by rw [hm]; simp [hc], ?_⟩
  rw [hm, Seraph.Stack.drain_cas n _ (by simp),
    Seraph.Stack.drain_array n s hu hr ht]
  simp [hc]

/-- Witness for C5 at the array-mode stack holding 1, 2, 3 (bottom to top),
draining up to 4 values. -/
theorem stack_migration_preserves_lifo_witness :
    (Seraph.Stack.maybe_promote_to_cas
        { ({ spinData := [1, 2, 3], casNodes := [], casSize := 0,
             usingCas := false, threadThreshold := 3, streakThreshold := 64,
             contentionStreak := 0, promotionRequested := false } :
            Seraph.Stack Nat) with
          promotionRequested := true }).usingCas = true ∧
      (Seraph.Stack.maybe_promote_to_cas
        { ({ spinData := [1, 2, 3], casNodes := [], casSize := 0,
             usingCas := false, threadThreshold := 3, streakThreshold := 64,
             contentionStreak := 0, promotionRequested := false } :
            Seraph.Stack Nat) with
          promotionRequested := true }).casNodes = [1, 2, 3].reverse ∧
      Seraph.Stack.drain 4 (Seraph.Stack.maybe_promote_to_cas
        { ({ spinData := [1, 2, 3], casNodes := [], casSize := 0,
             usingCas := false, threadThreshold := 3, streakThreshold := 64,
             contentionStreak := 0, promotionRequested := false } :
            Seraph.Stack Nat) with
          promotionRequested := true }) =
      Seraph.Stack.drain 4
        ({ spinData := [1, 2, 3], casNodes := [], casSize := 0,
           usingCas := false, threadThreshold := 3, streakThreshold := 64,
           contentionStreak := 0, promotionRequested := false } :
          Seraph.Stack Nat) :=
  stack_migration_preserves_lifo Nat
    ({ spinData := [1, 2, 3], casNodes := [], casSize := 0, usingCas := false,
       threadThreshold := 3, streakThreshold := 64, contentionStreak := 0,
       promotionRequested := false } : Seraph.Stack Nat) 4
    rfl rfl (by norm_num) rfl

/-! ## Queue reachability invariant -/

namespace Seraph.Queue

theorem reach_tail_inv {α : Type} {q : Queue α} (h : Reachable q) :
    q.tailIdx + 1 = q.nodes.length := by
  induction h with
  | base => rfl
  | enq q v _ _ => simp [enqueue_node]
  | deq q _ ih =>
    rcases hn : q.nodes with _ | ⟨d, rest⟩
    · have hp : (q.pop).2 = q := by simp [pop, hn]
      rw [hp]
      exact ih
    · rcases hr : rest with _ | ⟨v, r2⟩
      · have hp : (q.pop).2 = q := by simp [pop, hn, hr]
        rw [hp]
        exact ih
      · have hp : (q.pop).2 =
            { nodes := rest,
              tailIdx := (if q.tailIdx = 0 then 1 else q.tailIdx) - 1,
              size_ := q.size_ - 1 } := by
          simp [pop, hn, hr]
        rw [hp]
        dsimp only
        rw [hn, hr] at ih
        rw [hr]
        simp only [List.length_cons] at ih ⊢
        have hnz : q.tailIdx ≠ 0 := by omega
        rw [if_neg hnz]
        omega

end Seraph.Queue

/-- C9: in every reachable queue state in which `head_` equals `tail_`
(that is, `tail_` still points at the dummy node at position 0 of the live
chain), `front()` is `none`, `pop()` returns `none`, and `pop` leaves the
state unchanged — the empty condition admits no observable value. -/
theorem queue_head_eq_tail_reads_absent (α : Type) (q : Seraph.Queue α)
    (h : Seraph.Queue.Reachable q) (ht : q.tailIdx = 0) :
    q.front = none ∧ (q.pop).1 = none ∧ (q.pop).2 = q := by
  have hi := Seraph.Queue.reach_tail_inv h
  rw [ht] at hi
  have hl : q.nodes.length = 1 := by omega
  obtain ⟨d, hd⟩ := List.length_eq_one.mp hl
  exact ⟨by simp [Seraph.Queue.front, Seraph.Queue.front_impl, hd],
    by simp [Seraph.Queue.pop, hd], by simp [Seraph.Queue.pop, hd]⟩

/-- Witness for C9 at the freshly constructed queue, where `head_ = tail_ =
dummy`. -/
theorem queue_head_eq_tail_reads_absent_witness :
    (Seraph.Queue.new : Seraph.Queue Nat).front = none ∧
      ((Seraph.Queue.new : Seraph.Queue Nat).pop).1 = none ∧
      ((Seraph.Queue.new : Seraph.Queue Nat).pop).2 =
        (Seraph.Queue.new : Seraph.Queue Nat) :=
  queue_head_eq_tail_reads_absent Nat Seraph.Queue.new
    Seraph.Queue.Reachable.base rfl

/-- C10: for every RingBuffer state in which `head_` equals `tail_` (the
freshly constructed buffer included), `empty()` returns true while `size()`
returns 1 (unsigned `tail_ - head_ + 1`), so `empty()` and `size() == 0`
disagree: no state with `empty() = true` ever has `size() = 0`. -/
theorem ringbuffer_empty_size_disagree (r : Seraph.RingBuffer)
    (h : r.head_ = r.tail_) :
    r.empty = true ∧ r.size = 1 ∧ r.size ≠ 0 ∧
      (∀ r2 : Seraph.RingBuffer, r2.empty = true → r2.size ≠ 0) := by
  have key : ∀ r2 : Seraph.RingBuffer, r2.head_ = r2.tail_ → r2.size = 1 := by
    intro r2 h2
    unfold Seraph.RingBuffer.size Seraph.W64
    rw [← h2]
    have hlt : r2.head_ % 2 ^ 64 < 2 ^ 64 := Nat.mod_lt _ (by norm_num)
    have hle : r2.head_ % 2 ^ 64 ≤ r2.head_ := Nat.mod_le _ _
    have h1 : r2.head_ + (2 ^ 64 - r2.head_ % 2 ^ 64)
        = (r2.head_ - r2.head_ % 2 ^ 64) + 2 ^ 64 := by omega
    have h2' : r2.head_ - r2.head_ % 2 ^ 64 = 2 ^ 64 * (r2.head_ / 2 ^ 64) := by
      have := Nat.div_add_mod r2.head_ (2 ^ 64)
      omega
    rw [h1, h2']
    have h3 : 2 ^ 64 * (r2.head_ / 2 ^ 64) + 2 ^ 64
        = 2 ^ 64 * (r2.head_ / 2 ^ 64 + 1) := by
      ring
    rw [h3, Nat.mul_mod_right]
    norm_num
  refine ⟨?_, key r h, ?_, ?_⟩
  · simp [Seraph.RingBuffer.empty, h]
  · rw [key r h]; norm_num
  · intro r2 h2
    have heq : r2.head_ = r2.tail_ := by
      simpa [Seraph.RingBuffer.empty] using h2
    rw [key r2 heq]; norm_num

/-- Witness for C10 at the freshly constructed ring buffer of capacity 8. -/
theorem ringbuffer_empty_size_disagree_witness :
    (Seraph.RingBuffer.new 8).empty = true ∧
      (Seraph.RingBuffer.new 8).size = 1 ∧
      (Seraph.RingBuffer.new 8).size ≠ 0 ∧
      (∀ r2 : Seraph.RingBuffer, r2.empty = true → r2.size ≠ 0) :=
  ringbuffer_empty_size_disagree (Seraph.RingBuffer.new 8) rfl
